import Mathlib

/-!
Verification development for the `fd` federal-data consolidation engine
(`fd.py`).  The pandas data model is shallowly embedded: a data frame is a
header (list of column names), a parallel list of column dtypes, and a list
of rows (each row a list of cell values).  Pandas/numpy operations used by
the source (`astype`, `pd.merge(how='left')`, `pd.to_numeric(errors='coerce')`,
`DataFrame.rename`, `to_csv(header=...)`, chunked reads, `DataFrame.append`)
are embedded as executable Lean functions; fallible operations return
`Except String`.
-/

namespace FD

/-- A pandas cell value: an integer, a float (`none` models NaN, rationals
model finite floats' numeric content), or a string. -/
inductive Val where
  | vInt : Int → Val
  | vFloat : Option ℚ → Val
  | vStr : String → Val
deriving DecidableEq, Repr

/-- Column dtypes that appear in the source: int64/float64 (pandas read
defaults), int8/float32 (the narrow targets of `convert_dtypes`), and the
object/str dtype. -/
inductive Dtype where
  | dInt64 : Dtype
  | dInt8 : Dtype
  | dFloat64 : Dtype
  | dFloat32 : Dtype
  | dStr : Dtype
deriving DecidableEq, Repr

/-- A data frame: column names, per-column dtypes, and rows of cells. -/
structure DF where
  header : List String
  dtypes : List Dtype
  rows : List (List Val)
deriving DecidableEq, Repr

instance {ε α : Type} [DecidableEq ε] [DecidableEq α] : DecidableEq (Except ε α) := by
  intro x y
  cases x <;> cases y
  case error.error a b =>
    exact if h : a = b then Decidable.isTrue (by rw [h]) else Decidable.isFalse (by simp [h])
  case ok.ok a b =>
    exact if h : a = b then Decidable.isTrue (by rw [h]) else Decidable.isFalse (by simp [h])
  case error.ok a b => exact Decidable.isFalse (by simp)
  case ok.error a b => exact Decidable.isFalse (by simp)

/-- The NaN cell that pandas inserts for a left-join miss. -/
def nullVal : Val := Val.vFloat none

/-- The values of column `i`, in row order (`none` where a row is short). -/
def colVals (df : DF) (i : Nat) : List (Option Val) :=
  df.rows.map (fun r => r[i]?)

/-- Numeric value of a digit list (digits already validated by callers). -/
def digitsVal (cs : List Char) : Nat :=
  cs.foldl (fun acc c => acc * 10 + (c.toNat - 48)) 0

/-- Model of Python `int(s)`: an optional sign followed by digits. -/
def parseDigits (cs : List Char) : Option Nat :=
  if !cs.isEmpty && cs.all Char.isDigit then some (digitsVal cs) else none

/-- Model of Python `int(s)` on a string. -/
def parseIntStr (s : String) : Option Int :=
  match s.data with
  | '-' :: cs => (parseDigits cs).map (fun n => -(n : Int))
  | '+' :: cs => (parseDigits cs).map (fun n => (n : Int))
  | cs => (parseDigits cs).map (fun n => (n : Int))

/-- Unsigned decimal float: digits, optionally a point and more digits
(exponent notation is not exercised by these datasets and is omitted). -/
def parseUFloat (cs : List Char) : Option ℚ :=
  let ip := cs.takeWhile Char.isDigit
  let rest := cs.dropWhile Char.isDigit
  match rest with
  | [] => if ip.isEmpty then none else some ((digitsVal ip : ℚ))
  | '.' :: fp =>
    if fp.all Char.isDigit && !(ip.isEmpty && fp.isEmpty) then
      some ((digitsVal ip : ℚ) + (digitsVal fp : ℚ) / ((10 : ℚ) ^ fp.length))
    else none
  | _ => none

/-- Model of Python `float(s)`: optional sign then an unsigned decimal. -/
def parseFloatStr (s : String) : Option ℚ :=
  match s.data with
  | '-' :: cs => (parseUFloat cs).map (fun q => -q)
  | '+' :: cs => parseUFloat cs
  | cs => parseUFloat cs

/-- Truncation toward zero, as in a numpy float-to-int cast. -/
def truncQ (q : ℚ) : Int :=
  if 0 ≤ q then ⌊q⌋ else ⌈q⌉

/-- numpy's silent wrap-around of an integer into the int8 range. -/
def wrap8 (n : Int) : Int :=
  (n + 128) % 256 - 128

/-- Python `str(...)` of a cell (as numpy's elementwise str conversion). -/
def pyStr : Val → String
  | Val.vInt n => toString n
  | Val.vFloat none => "nan"
  | Val.vFloat (some q) =>
    if q.den = 1 then toString q.num ++ ".0" else toString q
  | Val.vStr s => s

/-- Elementwise semantics of pandas `Series.astype` for the three targets
used by `convert_dtypes` (`'int8'`, `'float32'`, `'str'`): int8 casting
silently wraps integers modulo 2^8, raises on NaN and on text that is not an
integer literal; float32 casting raises on text that does not parse as a
number; str casting never fails. -/
def astypeCell : Dtype → Val → Except String Val
  | Dtype.dInt8, Val.vInt n => Except.ok (Val.vInt (wrap8 n))
  | Dtype.dInt8, Val.vFloat none =>
    Except.error "ValueError: cannot convert non-finite values to integer"
  | Dtype.dInt8, Val.vFloat (some q) => Except.ok (Val.vInt (wrap8 (truncQ q)))
  | Dtype.dInt8, Val.vStr s =>
    match parseIntStr s with
    | some n => Except.ok (Val.vInt (wrap8 n))
    | none => Except.error "ValueError: invalid literal for int"
  | Dtype.dFloat32, Val.vInt n => Except.ok (Val.vFloat (some (n : ℚ)))
  | Dtype.dFloat32, Val.vFloat x => Except.ok (Val.vFloat x)
  | Dtype.dFloat32, Val.vStr s =>
    if s = "nan" then Except.ok (Val.vFloat none)
    else
      match parseFloatStr s with
      | some q => Except.ok (Val.vFloat (some q))
      | none => Except.error "ValueError: could not convert string to float"
  | Dtype.dStr, v => Except.ok (Val.vStr (pyStr v))
  | _, v => Except.ok v

/-- Error-propagating map (the elementwise traversal under `astype`). -/
def mapE (f : α → Except String β) : List α → Except String (List β)
  | [] => Except.ok []
  | a :: l =>
    match f a with
    | Except.error e => Except.error e
    | Except.ok b =>
      match mapE f l with
      | Except.error e => Except.error e
      | Except.ok bs => Except.ok (b :: bs)

/-- The elementwise cast of one cell of a row at column index `i` (rows too
short to reach `i` pass through, which well-formed frames never exercise). -/
def castCell (i : Nat) (t : Dtype) (r : List Val) : Except String (List Val) :=
  match r[i]? with
  | some v =>
    match astypeCell t v with
    | Except.error e => Except.error e
    | Except.ok v' => Except.ok (r.set i v')
  | none => Except.ok r

/-- Cast the column at index `i` to dtype `t`, elementwise. -/
def castColAt (df : DF) (i : Nat) (t : Dtype) : Except String DF :=
  match mapE (castCell i t) df.rows with
  | Except.error e => Except.error e
  | Except.ok rows => Except.ok ⟨df.header, df.dtypes.set i t, rows⟩

/-- Cast each named column in turn (the columns of `df[group]`). -/
def castCols (df : DF) (names : List String) (t : Dtype) : Except String DF :=
  match names with
  | [] => Except.ok df
  | c :: cs =>
    match castColAt df (df.header.indexOf c) t with
    | Except.error e => Except.error e
    | Except.ok df' => castCols df' cs t

/-- One group assignment `df[group] = df[group].astype(t) if group else None`
from `convert_dtypes`: an empty group assigns to zero columns (a no-op);
otherwise `df[group]` raises a KeyError if a name is absent, and the cast is
applied to every named column. -/
def castGroup (df : DF) (names : List String) (t : Dtype) : Except String DF :=
  if names.isEmpty then Except.ok df
  else if names.all (fun c => decide (c ∈ df.header)) then castCols df names t
  else Except.error "KeyError: columns not in index"

/-- `convert_dtypes(df, dtypes)` from fd.py: unpack the three groups and run
the int8, float32 and str group casts in that order. -/
def convert_dtypes (df : DF) (dtypes : List (List String)) : Except String DF :=
  match dtypes with
  | [ints, flts, strs] =>
    match castGroup df ints Dtype.dInt8 with
    | Except.error e => Except.error e
    | Except.ok df1 =>
      match castGroup df1 flts Dtype.dFloat32 with
      | Except.error e => Except.error e
      | Except.ok df2 => castGroup df2 strs Dtype.dStr
  | _ => Except.error "ValueError: cannot unpack dtypes"

/-- The value shape a successful cast guarantees for each target dtype. -/
def isShape : Dtype → Val → Prop
  | Dtype.dInt8, Val.vInt n => -128 ≤ n ∧ n < 128
  | Dtype.dFloat32, Val.vFloat _ => True
  | Dtype.dStr, Val.vStr _ => True
  | _, _ => False

/-- All values stored in column `j` satisfy the shape of dtype `t`. -/
def colShape (df : DF) (j : Nat) (t : Dtype) : Prop :=
  ∀ r ∈ df.rows, ∀ v, r[j]? = some v → isShape t v

/-- `pd.to_numeric(x, errors='coerce')` on a cell: numbers pass through,
parseable text becomes its number, unparseable text becomes NaN. -/
def toNumericCell : Val → Val
  | Val.vStr s =>
    match parseFloatStr s with
    | some q => Val.vFloat (some q)
    | none => Val.vFloat none
  | v => v

/-- `chunk.value = pd.to_numeric(chunk.value, errors='coerce')` from
`bls_sm_consolidate`: attribute access on a missing `value` column raises;
otherwise every cell of the column is coerced (the result dtype is the
float64 that `to_numeric` yields once NaNs are present). -/
def setValueNumeric (df : DF) : Except String DF :=
  if "value" ∈ df.header then
    let i := df.header.indexOf "value"
    Except.ok ⟨df.header, df.dtypes.set i Dtype.dFloat64,
      df.rows.map (fun r =>
        match r[i]? with
        | some v => r.set i (toNumericCell v)
        | none => r)⟩
  else Except.error "AttributeError: value"

/-- `df.rename(columns={old: new})`: every occurrence of `old` in the
header is relabelled; nothing else changes and no error is raised. -/
def renameCol (df : DF) (old new : String) : DF :=
  ⟨df.header.map (fun c => if c = old then new else c), df.dtypes, df.rows⟩

/-- The fix for the misnamed BLS CEW column (`bls_cew_consolidate`). -/
def fixCewColumn (df : DF) : DF :=
  renameCol df "oty_taxable_qtrly_wages_chg.1" "oty_taxable_qtrly_wages_pct"

/-- The tuple of a row's values at the join-key columns. -/
def keyTuple (hdr : List String) (ks : List String) (row : List Val) :
    List (Option Val) :=
  ks.map (fun k => row[hdr.indexOf k]?)

/-- The right-side residual row: every column whose name is not a join key
(pandas keeps the key columns once, from the left side). -/
def residualRow (hdr : List String) (ks : List String) (row : List Val) :
    List Val :=
  (hdr.zip row).filterMap (fun p => if p.1 ∈ ks then none else some p.2)

/-- Right-side residual header. -/
def residualHeader (hdr : List String) (ks : List String) : List String :=
  hdr.filter (fun c => decide (c ∉ ks))

/-- The rows a left row joins with: every right row whose key tuple equals
the left row's key tuple. -/
def rightMatches (l r : DF) (ks : List String) (lrow : List Val) :
    List (List Val) :=
  r.rows.filter (fun rrow =>
    decide (keyTuple r.header ks rrow = keyTuple l.header ks lrow))

/-- The output rows produced for one left row: all matches in right-row
order, or a single NaN-padded row when there is no match. -/
def joinRowsFor (l r : DF) (ks : List String) (lrow : List Val) :
    List (List Val) :=
  let ms := rightMatches l r ks lrow
  if ms.isEmpty then
    [lrow ++ List.replicate (residualHeader r.header ks).length nullVal]
  else ms.map (fun rrow => lrow ++ residualRow r.header ks rrow)

/-- `pd.merge(l, r, how='left', on=ks)`: raises when a key is absent from
either side; otherwise produces, in left-row order, each left row followed
by the residual of its matching right rows (NaN residual on a miss). -/
def leftJoin (l r : DF) (ks : List String) : Except String DF :=
  if ks.all (fun k => decide (k ∈ l.header)) &&
      ks.all (fun k => decide (k ∈ r.header)) then
    Except.ok ⟨l.header ++ residualHeader r.header ks,
      l.dtypes ++ ((r.header.zip r.dtypes).filterMap
        (fun p => if p.1 ∈ ks then none else some p.2)),
      l.rows.flatMap (joinRowsFor l r ks)⟩
  else Except.error "KeyError: merge key not found"

/-- A reference table's join keys are unique: no two rows share a key tuple
(the cardinality-1 assumption of the spec). -/
def uniqueKey (r : DF) (ks : List String) : Prop :=
  (r.rows.map (keyTuple r.header ks)).Nodup

instance (r : DF) (ks : List String) : Decidable (uniqueKey r ks) := by
  unfold uniqueKey; infer_instance

/-- The ordered sequence of left-outer merges a consolidation applies to a
fact fragment against its pre-loaded reference tables. -/
def enrich (F : DF) : List (DF × List String) → Except String DF
  | [] => Except.ok F
  | p :: R =>
    match leftJoin F p.1 p.2 with
    | Except.error e => Except.error e
    | Except.ok F' => enrich F' R

/-- `all3.append(all2, ignore_index=True)` from `epa_ucmr_consolidate`:
rows of both frames stacked in order, columns aligned by name (columns
missing on one side are NaN there). -/
def dfAppend (a b : DF) : DF :=
  let hdr := a.header ++ b.header.filter (fun c => decide (c ∉ a.header))
  let align (src : DF) (row : List Val) : List Val :=
    hdr.map (fun c =>
      if c ∈ src.header then
        match row[src.header.indexOf c]? with
        | some v => v
        | none => nullVal
      else nullVal)
  ⟨hdr, a.dtypes ++ List.replicate (hdr.length - a.dtypes.length) Dtype.dFloat64,
    a.rows.map (align a) ++ b.rows.map (align b)⟩

/-- Render a float with `float_format='%.2f'`. -/
def fmt2 (q : ℚ) : String :=
  let m : Int := round (q * 100)
  let a := m.natAbs
  (if m < 0 then "-" else "") ++ toString (a / 100) ++ "." ++
    (if a % 100 < 10 then "0" else "") ++ toString (a % 100)

/-- Render one CSV cell as `to_csv(float_format='%.2f')` does (NaN becomes
the empty field). -/
def renderVal : Val → String
  | Val.vInt n => toString n
  | Val.vFloat none => ""
  | Val.vFloat (some q) => fmt2 q
  | Val.vStr s => s

/-- The header line of a frame's CSV output. -/
def headerLine (df : DF) : String :=
  String.intercalate "," df.header

/-- One data line of a frame's CSV output. -/
def rowLine (row : List Val) : String :=
  String.intercalate "," (row.map renderVal)

/-- The data lines of a frame. -/
def dataLines (df : DF) : List String :=
  df.rows.map rowLine

/-- `chunk.to_csv(f, header=h, index=False)`: the lines appended to the
output file for one fragment. -/
def toCsvLines (df : DF) (h : Bool) : List String :=
  (if h then [headerLine df] else []) ++ dataLines df

/-- The fragment loop shared by the consolidators: write each fragment,
passing `header=h` for the first and `header=False` ever after. -/
def writeFragments : List DF → Bool → List String
  | [], _ => []
  | c :: cs, h => toCsvLines c h ++ writeFragments cs false

/-- The outer loop of `bls_cew_consolidate` over downloaded archives: the
header flag is initialised once before the archive loop, so it survives
archive boundaries and only falls after the first fragment ever written. -/
def writeArchives : List (List DF) → Bool → List String
  | [], _ => []
  | a :: as, h => writeFragments a h ++ writeArchives as (h && a.isEmpty)

/-- `pd.read_csv(..., chunksize=n)` on a list of rows: successive slices of
`n` rows (the last may be shorter); an empty input yields no chunks. -/
def chunksOfAux : Nat → Nat → List α → List (List α)
  | 0, _, _ => []
  | _ + 1, _, [] => []
  | fuel + 1, n, l => l.take n :: chunksOfAux fuel n (l.drop n)

/-- Chunking with explicit fuel so that it reduces by iota rules. -/
def chunksOf (n : Nat) (l : List α) : List (List α) :=
  if n = 0 then [] else chunksOfAux l.length n l

/-- A frame read back in chunks of `n` rows. -/
def chunkDF (n : Nat) (df : DF) : List DF :=
  (chunksOf n df.rows).map (fun rs => ⟨df.header, df.dtypes, rs⟩)

/-- The Python type objects used as tags in the `dtype` dictionaries. -/
inductive PyTy where
  | pint : PyTy
  | pfloat : PyTy
  | pstr : PyTy
deriving DecidableEq, Repr

/-- A `dtype` dictionary: column names with their declared Python type, in
declaration order (Python dict keys are unique). -/
abbrev Schema := List (String × PyTy)

/-- `get_bls_dtypes(bls_dict)` from fd.py: the three comprehensions over
`bls_dict['dtype'].items()` selecting keys declared `int`, `float`, `str`. -/
def get_bls_dtypes (bls_dict : Schema) : List (List String) :=
  let items := bls_dict
  let ints := (items.filter (fun p => decide (p.2 = PyTy.pint))).map Prod.fst
  let flts := (items.filter (fun p => decide (p.2 = PyTy.pfloat))).map Prod.fst
  let strs := (items.filter (fun p => decide (p.2 = PyTy.pstr))).map Prod.fst
  [ints, flts, strs]

/-- `get_dtypes(agency_dict)` from fd.py: the same three comprehensions
over `agency_dict['dtype'].items()`. -/
def get_dtypes (agency_dict : Schema) : List (List String) :=
  let items := agency_dict
  let ints := (items.filter (fun p => decide (p.2 = PyTy.pint))).map Prod.fst
  let flts := (items.filter (fun p => decide (p.2 = PyTy.pfloat))).map Prod.fst
  let strs := (items.filter (fun p => decide (p.2 = PyTy.pstr))).map Prod.fst
  [ints, flts, strs]

/-- The `bls_ce['dtype']` dictionary, in source declaration order (the
source literal repeats the key `supersector_name`; a Python dict keeps its
first position and, here, the identical value). -/
def bls_ce_schema : Schema :=
  [("data_type_text", PyTy.pstr), ("industry_name", PyTy.pstr),
   ("period_name", PyTy.pstr), ("series_title", PyTy.pstr),
   ("supersector_name", PyTy.pstr), ("series_id", PyTy.pstr),
   ("industry_code", PyTy.pstr), ("naics_code", PyTy.pstr),
   ("period", PyTy.pstr), ("footnote_codes", PyTy.pstr),
   ("sort_sequence", PyTy.pstr), ("publishing_status", PyTy.pstr),
   ("supersector_code", PyTy.pstr), ("data_type_code", PyTy.pstr),
   ("seasonal", PyTy.pstr), ("footnote_code_series", PyTy.pstr),
   ("begin_period", PyTy.pstr), ("end_period", PyTy.pstr),
   ("display_level", PyTy.pstr), ("selectable", PyTy.pstr),
   ("season_text", PyTy.pstr), ("period_abbr", PyTy.pstr),
   ("year", PyTy.pint), ("value", PyTy.pfloat),
   ("begin_year", PyTy.pint), ("end_year", PyTy.pint)]

/-- The `bls_sm['dtype']` dictionary, in source declaration order. -/
def bls_sm_schema : Schema :=
  [("area_code", PyTy.pstr), ("area_name", PyTy.pstr),
   ("benchmark_year", PyTy.pint), ("state_code", PyTy.pstr),
   ("state_name", PyTy.pstr), ("data_type_text", PyTy.pstr),
   ("industry_name", PyTy.pstr), ("series_id", PyTy.pstr),
   ("supersector_code", PyTy.pstr), ("industry_code", PyTy.pstr),
   ("period", PyTy.pstr), ("footnote_codes", PyTy.pstr),
   ("data_type_code", PyTy.pstr), ("seasonal", PyTy.pstr),
   ("begin_period", PyTy.pstr), ("end_period", PyTy.pstr),
   ("year", PyTy.pint), ("value", PyTy.pfloat),
   ("begin_year", PyTy.pint), ("end_year", PyTy.pint)]

/-- Error-propagating sequencing (written out so that it unfolds by iota
reduction in proofs). -/
def andThenE (x : Except String α) (f : α → Except String β) :
    Except String β :=
  match x with
  | Except.error e => Except.error e
  | Except.ok a => f a

/-- The reference-merge phase of `bls_ce_consolidate`: rename the series
footnote column, then left-merge `ce.datatype`, `ce.industry`, `ce.seasonal`
(its two columns relabelled `seasonal`, `season_text`) and `ce.supersector`
into the series table, in that order. -/
def bls_ce_build_series (series data_type industry_type season sector : DF) :
    Except String DF :=
  let series0 := renameCol series "footnote_codes" "footnote_code_series"
  andThenE (leftJoin series0 data_type ["data_type_code"]) fun s1 =>
  andThenE (leftJoin s1 industry_type ["industry_code"]) fun s2 =>
  andThenE (if season.header.length = 2 then
      Except.ok (DF.mk ["seasonal", "season_text"] season.dtypes season.rows)
    else Except.error "ValueError: Length mismatch") fun season' =>
  andThenE (leftJoin s2 season' ["seasonal"]) fun s3 =>
  leftJoin s3 sector ["supersector_code"]

/-- The fragment loop of `bls_ce_consolidate`: each fact chunk is merged
with the enriched series table on `series_id`, with the period table on
`period`, type-coerced, and appended (header on the first chunk only). -/
def bls_ce_stream (series period : DF) (dtypes : List (List String)) :
    List DF → Bool → Except String (List String)
  | [], _ => Except.ok []
  | c :: cs, h =>
    andThenE (leftJoin c series ["series_id"]) fun c1 =>
    andThenE (leftJoin c1 period ["period"]) fun c2 =>
    andThenE (convert_dtypes c2 dtypes) fun c3 =>
    andThenE (bls_ce_stream series period dtypes cs false) fun rest =>
    Except.ok (toCsvLines c3 h ++ rest)

/-- `bls_ce_consolidate` on already-read input tables: build the enriched
series table, then stream the fact table in 10000-row chunks. -/
def bls_ce_consolidate
    (series data_type industry_type season sector period fact : DF) :
    Except String (List String) :=
  andThenE (bls_ce_build_series series data_type industry_type season sector)
    fun s =>
  bls_ce_stream s period (get_bls_dtypes bls_ce_schema) (chunkDF 10000 fact)
    true

/-- The reference-merge phase of `bls_sm_consolidate`: rename the series
footnote column, then left-merge `sm.area`, `sm.supersector`,
`sm.data_type`, `sm.industry` and `sm.state` into the series table. -/
def bls_sm_build_series (series area supersector datatype industry state : DF) :
    Except String DF :=
  let series0 := renameCol series "footnote_codes" "footnote_code_series"
  andThenE (leftJoin series0 area ["area_code"]) fun s1 =>
  andThenE (leftJoin s1 supersector ["supersector_code"]) fun s2 =>
  andThenE (leftJoin s2 datatype ["data_type_code"]) fun s3 =>
  andThenE (leftJoin s3 industry ["industry_code"]) fun s4 =>
  leftJoin s4 state ["state_code"]

/-- The fragment loop of `bls_sm_consolidate`: merge on `series_id`, coerce
the permissive `value` column with `to_numeric(errors='coerce')`, then
type-coerce and append. -/
def bls_sm_stream (series : DF) (dtypes : List (List String)) :
    List DF → Bool → Except String (List String)
  | [], _ => Except.ok []
  | c :: cs, h =>
    andThenE (leftJoin c series ["series_id"]) fun c1 =>
    andThenE (setValueNumeric c1) fun c2 =>
    andThenE (convert_dtypes c2 dtypes) fun c3 =>
    andThenE (bls_sm_stream series dtypes cs false) fun rest =>
    Except.ok (toCsvLines c3 h ++ rest)

/-- `bls_sm_consolidate` on already-read input tables. -/
def bls_sm_consolidate
    (series area supersector datatype industry state fact : DF) :
    Except String (List String) :=
  andThenE (bls_sm_build_series series area supersector datatype industry state)
    fun s =>
  bls_sm_stream s (get_bls_dtypes bls_sm_schema) (chunkDF 10000 fact) true

/-- The multi-column join key of the UCMR3 disinfectant merge. -/
def epaJoinKeys : List String :=
  ["PWSID", "FacilityID", "SamplePointID", "CollectionDate"]

/-- The in-memory frame `all` built by `epa_ucmr_consolidate`: the full
UCMR3 table merged with its disinfectant and zipcode tables, the full UCMR2
table merged with zipcodes, and the two appended into a single frame. -/
def epa_ucmr_all (all3 drt zipcodes all2 : DF) : Except String DF :=
  andThenE (leftJoin all3 drt epaJoinKeys) fun a3 =>
  andThenE (leftJoin a3 zipcodes ["PWSID"]) fun a3' =>
  andThenE (leftJoin all2 zipcodes ["PWSID"]) fun a2 =>
  Except.ok (dfAppend a3' a2)

/-- `epa_ucmr_consolidate` on already-read input tables: materialise `all`
and write it out in one `to_csv` call. -/
def epa_ucmr_consolidate (all3 drt zipcodes all2 : DF) :
    Except String (List String) :=
  andThenE (epa_ucmr_all all3 drt zipcodes all2) fun allDF =>
  Except.ok (toCsvLines allDF true)

/-! ### Concrete example tables for the bls:ce driver -/

/-- A one-row `ce.series` table. -/
def exCeSeries : DF :=
  ⟨["series_id", "supersector_code", "industry_code", "data_type_code",
    "seasonal", "series_title", "footnote_codes", "begin_year",
    "begin_period", "end_year", "end_period"],
   [Dtype.dStr, Dtype.dStr, Dtype.dStr, Dtype.dStr, Dtype.dStr, Dtype.dStr,
    Dtype.dStr, Dtype.dInt64, Dtype.dStr, Dtype.dInt64, Dtype.dStr],
   [[Val.vStr "S1", Val.vStr "01", Val.vStr "001", Val.vStr "02",
     Val.vStr "S", Val.vStr "t", Val.vStr "g", Val.vInt 1, Val.vStr "M01",
     Val.vInt 2, Val.vStr "M12"]]⟩

/-- A `ce.datatype` table whose join-key column exists but which holds no
rows at all. -/
def exCeDataTypeEmpty : DF :=
  ⟨["data_type_code", "data_type_text"], [Dtype.dStr, Dtype.dStr], []⟩

/-- A one-row `ce.industry` table. -/
def exCeIndustry : DF :=
  ⟨["industry_code", "naics_code", "publishing_status", "industry_name",
    "display_level", "selectable", "sort_sequence"],
   [Dtype.dStr, Dtype.dStr, Dtype.dStr, Dtype.dStr, Dtype.dStr, Dtype.dStr,
    Dtype.dStr],
   [[Val.vStr "001", Val.vStr "N", Val.vStr "A", Val.vStr "nm",
     Val.vStr "0", Val.vStr "T", Val.vStr "1"]]⟩

/-- A one-row `ce.seasonal` table (its two columns are relabelled by the
driver). -/
def exCeSeason : DF :=
  ⟨["seasonal0", "seasonal_text0"], [Dtype.dStr, Dtype.dStr],
   [[Val.vStr "S", Val.vStr "SA"]]⟩

/-- A one-row `ce.supersector` table. -/
def exCeSector : DF :=
  ⟨["supersector_code", "supersector_name"], [Dtype.dStr, Dtype.dStr],
   [[Val.vStr "01", Val.vStr "sec"]]⟩

/-- A one-row `ce.period` table. -/
def exCePeriod : DF :=
  ⟨["period", "period_abbr", "period_name"],
   [Dtype.dStr, Dtype.dStr, Dtype.dStr],
   [[Val.vStr "M01", Val.vStr "JAN", Val.vStr "Jan"]]⟩

/-- A one-row `ce.data.0.AllCESSeries` fact table. -/
def exCeFact : DF :=
  ⟨["series_id", "year", "period", "value", "footnote_codes"],
   [Dtype.dStr, Dtype.dInt64, Dtype.dStr, Dtype.dFloat64, Dtype.dStr],
   [[Val.vStr "S1", Val.vInt 1, Val.vStr "M01", Val.vFloat (some 3),
     Val.vStr "f"]]⟩

/-! ### Concrete example tables for the epa:ucmr driver -/

/-- A two-row UCMR3 occurrence fact table. -/
def exUcmrAll3 : DF :=
  ⟨["PWSID", "FacilityID", "SamplePointID", "CollectionDate", "Contaminant"],
   [Dtype.dStr, Dtype.dStr, Dtype.dStr, Dtype.dStr, Dtype.dStr],
   [[Val.vStr "P1", Val.vStr "F1", Val.vStr "SP1", Val.vStr "D1",
     Val.vStr "c1"],
    [Val.vStr "P2", Val.vStr "F1", Val.vStr "SP1", Val.vStr "D1",
     Val.vStr "c2"]]⟩

/-- A one-row UCMR3 disinfectant reference table. -/
def exUcmrDrt : DF :=
  ⟨["PWSID", "FacilityID", "SamplePointID", "CollectionDate",
    "Disinfectant Type"],
   [Dtype.dStr, Dtype.dStr, Dtype.dStr, Dtype.dStr, Dtype.dStr],
   [[Val.vStr "P1", Val.vStr "F1", Val.vStr "SP1", Val.vStr "D1",
     Val.vStr "chl"]]⟩

/-- A one-row UCMR3 zipcode reference table. -/
def exUcmrZip : DF :=
  ⟨["PWSID", "ZIPCODE"], [Dtype.dStr, Dtype.dStr],
   [[Val.vStr "P1", Val.vStr "95926"]]⟩

/-- A one-row UCMR2 occurrence fact table. -/
def exUcmrAll2 : DF :=
  ⟨["PWSID", "Contaminant"], [Dtype.dStr, Dtype.dStr],
   [[Val.vStr "P3", Val.vStr "c3"]]⟩

/-! ### Infrastructure lemmas -/

@[simp]
theorem andThenE_ok (a : α) (f : α → Except String β) :
    andThenE (Except.ok a) f = f a := rfl

@[simp]
theorem andThenE_error (e : String) (f : α → Except String β) :
    andThenE (Except.error e : Except String α) f = Except.error e := rfl

theorem mapE_forall₂ {α β : Type} {f : α → Except String β} {l : List α}
    {l' : List β} (h : mapE f l = Except.ok l') :
    List.Forall₂ (fun a b => f a = Except.ok b) l l' := by
  induction l generalizing l' with
  | nil =>
    simp only [mapE, Except.ok.injEq] at h
    subst h
    exact List.Forall₂.nil
  | cons a t ih =>
    simp only [mapE] at h
    cases hfa : f a with
    | error e => rw [hfa] at h; cases h
    | ok b =>
      rw [hfa] at h
      cases hml : mapE f t with
      | error e => rw [hml] at h; cases h
      | ok bs =>
        rw [hml] at h
        cases h
        exact List.Forall₂.cons hfa (ih hml)

theorem mapE_ok_of_forall {α β : Type} {f : α → Except String β} {l : List α}
    (h : ∀ a ∈ l, ∃ b, f a = Except.ok b) : ∃ l', mapE f l = Except.ok l' := by
  induction l with
  | nil => exact ⟨[], rfl⟩
  | cons a t ih =>
    obtain ⟨b, hb⟩ := h a (List.mem_cons_self a t)
    obtain ⟨bs, hbs⟩ := ih (fun x hx => h x (List.mem_cons_of_mem a hx))
    exact ⟨b :: bs, by simp [mapE, hb, hbs]⟩

theorem forall₂_mem_left {α β : Type} {R : α → β → Prop} {l : List α}
    {l' : List β} (h : List.Forall₂ R l l') {a : α} (ha : a ∈ l) :
    ∃ b ∈ l', R a b := by
  induction h with
  | nil => cases ha
  | cons hR _ ih =>
    rcases List.mem_cons.1 ha with rfl | ha'
    · exact ⟨_, List.mem_cons_self _ _, hR⟩
    · obtain ⟨b, hb, hRb⟩ := ih ha'
      exact ⟨b, List.mem_cons_of_mem _ hb, hRb⟩

theorem forall₂_map_left_eq {α β : Type} {g : β → Option α} {l : List α}
    {l' : List β} (h : List.Forall₂ (fun a b => g b = some a) l l') :
    l'.map g = l.map some := by
  induction h with
  | nil => rfl
  | cons hR _ ih => simp [hR, ih]

/-! ### C8: the silent rename of the misnamed CEW column -/

/-- C8: the remap `oty_taxable_qtrly_wages_chg.1 → oty_taxable_qtrly_wages_pct`
performed in `bls_cew_consolidate` is total (it raises nothing), renames the
column when present, leaves the frame untouched when absent, never changes
rows or dtypes, and is idempotent. -/
theorem fixCewColumn_silent_idempotent (df : DF) :
    fixCewColumn (fixCewColumn df) = fixCewColumn df ∧
    ("oty_taxable_qtrly_wages_chg.1" ∉ df.header → fixCewColumn df = df) ∧
    ("oty_taxable_qtrly_wages_chg.1" ∈ df.header →
      "oty_taxable_qtrly_wages_chg.1" ∉ (fixCewColumn df).header ∧
      "oty_taxable_qtrly_wages_pct" ∈ (fixCewColumn df).header) ∧
    (fixCewColumn df).rows = df.rows ∧ (fixCewColumn df).dtypes = df.dtypes := by
  set old := "oty_taxable_qtrly_wages_chg.1" with hold
  set new := "oty_taxable_qtrly_wages_pct" with hnew
  have hne : new ≠ old := by rw [hold, hnew]; decide
  refine ⟨?_, ?_, ?_, rfl, rfl⟩
  · simp only [fixCewColumn, renameCol, ← hold, ← hnew, List.map_map]
    refine congrArg (fun h => DF.mk h df.dtypes df.rows) ?_
    refine List.map_congr_left (fun c _ => ?_)
    by_cases hc : c = old
    · simp [hc, hne]
    · by_cases hc' : c = new <;> simp [Function.comp, hc, hc', hne]
  · intro habs
    simp only [fixCewColumn, renameCol, ← hold, ← hnew]
    have heq : df.header.map (fun c => if c = old then new else c) = df.header := by
      conv_rhs => rw [← List.map_id df.header]
      refine List.map_congr_left (fun c hc => ?_)
      have : c ≠ old := fun h => habs (h ▸ hc)
      simp [this]
    rw [heq]
  · intro hmem
    constructor
    · simp only [fixCewColumn, renameCol, ← hold, ← hnew, List.mem_map]
      rintro ⟨c, _, hc⟩
      by_cases h : c = old
      · rw [h, if_pos rfl] at hc
        exact hne hc
      · rw [if_neg h] at hc
        exact h hc
    · simp only [fixCewColumn, renameCol, ← hold, ← hnew, List.mem_map]
      exact ⟨old, hmem, by simp⟩

/-- C8 witness: on a frame that does contain the misnamed column, the fix
introduces the corrected name. -/
theorem fixCewColumn_witness :
    "oty_taxable_qtrly_wages_pct" ∈
      (fixCewColumn ⟨["a", "oty_taxable_qtrly_wages_chg.1"],
        [Dtype.dStr, Dtype.dFloat64],
        [[Val.vStr "x", Val.vFloat (some 1)]]⟩).header :=
  ((fixCewColumn_silent_idempotent _).2.2.1 (by decide)).2

/-! ### C10: `get_bls_dtypes` and `get_dtypes` agree -/

/-- C10: on every schema dictionary the deprecated `get_bls_dtypes` and the
general `get_dtypes` return identical triples; each list holds exactly the
keys declared with its type, in declaration order, and with unique dict
keys the three lists are pairwise disjoint. -/
theorem get_dtypes_equivalence (s : Schema) (hnd : (s.map Prod.fst).Nodup)
    (ints flts strs : List String)
    (h : get_dtypes s = [ints, flts, strs]) :
    get_bls_dtypes s = get_dtypes s ∧
    ints = (s.filter (fun p => decide (p.2 = PyTy.pint))).map Prod.fst ∧
    flts = (s.filter (fun p => decide (p.2 = PyTy.pfloat))).map Prod.fst ∧
    strs = (s.filter (fun p => decide (p.2 = PyTy.pstr))).map Prod.fst ∧
    (∀ c ∈ ints, c ∉ flts ∧ c ∉ strs) ∧ (∀ c ∈ flts, c ∉ strs) ∧
    (∀ c ty, (c, ty) ∈ s →
      (ty = PyTy.pint → c ∈ ints) ∧ (ty = PyTy.pfloat → c ∈ flts) ∧
      (ty = PyTy.pstr → c ∈ strs)) := by
  have hinj : ∀ p ∈ s, ∀ q ∈ s, p.1 = q.1 → p = q := by
    intro p hp q hq hpq
    exact List.inj_on_of_nodup_map hnd hp hq hpq
  simp only [get_dtypes, Except.ok.injEq, List.cons.injEq, and_true] at h
  obtain ⟨hi, hf, hs⟩ := h
  have key : ∀ (c : String) (ty ty' : PyTy), ty ≠ ty' →
      c ∈ (s.filter (fun p => decide (p.2 = ty))).map Prod.fst →
      c ∉ (s.filter (fun p => decide (p.2 = ty'))).map Prod.fst := by
    intro c ty ty' hne hc hc'
    simp only [List.mem_map, List.mem_filter, decide_eq_true_eq] at hc hc'
    obtain ⟨p, ⟨hp, hpt⟩, hp1⟩ := hc
    obtain ⟨q, ⟨hq, hqt⟩, hq1⟩ := hc'
    have : p = q := hinj p hp q hq (hp1.trans hq1.symm)
    exact hne (hpt ▸ this ▸ hqt)
  subst hi; subst hf; subst hs
  refine ⟨rfl, rfl, rfl, rfl, ?_, ?_, ?_⟩
  · intro c hc
    exact ⟨key c PyTy.pint PyTy.pfloat (by decide) hc,
      key c PyTy.pint PyTy.pstr (by decide) hc⟩
  · intro c hc
    exact key c PyTy.pfloat PyTy.pstr (by decide) hc
  · intro c ty hcty
    refine ⟨fun hty => ?_, fun hty => ?_, fun hty => ?_⟩ <;>
    · subst hty
      simp only [List.mem_map, List.mem_filter, decide_eq_true_eq]
      exact ⟨(c, _), ⟨hcty, rfl⟩, rfl⟩

/-! ### Lemmas about `astype` and the group casts of `convert_dtypes` -/

theorem wrap8_range (n : Int) : -128 ≤ wrap8 n ∧ wrap8 n < 128 := by
  unfold wrap8
  have h1 : 0 ≤ (n + 128) % 256 := Int.emod_nonneg _ (by decide)
  have h2 : (n + 128) % 256 < 256 := Int.emod_lt_of_pos _ (by decide)
  omega

theorem astypeCell_shape {t : Dtype}
    (ht : t = Dtype.dInt8 ∨ t = Dtype.dFloat32 ∨ t = Dtype.dStr)
    {v v' : Val} (h : astypeCell t v = Except.ok v') : isShape t v' := by
  rcases ht with rfl | rfl | rfl
  · cases v with
    | vInt n => cases h; exact wrap8_range n
    | vFloat x =>
      cases x with
      | none => cases h
      | some q => cases h; exact wrap8_range (truncQ q)
    | vStr s =>
      have h' : (match parseIntStr s with
          | some n => Except.ok (Val.vInt (wrap8 n))
          | none =>
            (Except.error "ValueError: invalid literal for int" :
              Except String Val)) = Except.ok v' := h
      cases hp : parseIntStr s with
      | none => rw [hp] at h'; cases h'
      | some n => rw [hp] at h'; cases h'; exact wrap8_range n
  · cases v with
    | vInt n => cases h; trivial
    | vFloat x => cases h; trivial
    | vStr s =>
      have h' : (if s = "nan" then Except.ok (Val.vFloat none)
          else match parseFloatStr s with
            | some q => Except.ok (Val.vFloat (some q))
            | none =>
              (Except.error "ValueError: could not convert string to float" :
                Except String Val)) = Except.ok v' := h
      by_cases hs : s = "nan"
      · rw [if_pos hs] at h'; cases h'; trivial
      · rw [if_neg hs] at h'
        cases hp : parseFloatStr s with
        | none => rw [hp] at h'; cases h'
        | some q => rw [hp] at h'; cases h'; trivial
  · cases v <;> (cases h; trivial)

theorem castCell_ok {i : Nat} {t : Dtype} {r r' : List Val}
    (h : castCell i t r = Except.ok r') :
    (∀ j, j ≠ i → r'[j]? = r[j]?) ∧
    (∀ v, r[i]? = some v →
      ∃ v', astypeCell t v = Except.ok v' ∧ r'[i]? = some v') ∧
    (r[i]? = none → r' = r) := by
  unfold castCell at h
  cases hv : r[i]? with
  | none =>
    rw [hv] at h
    cases h
    exact ⟨fun j _ => rfl, by simp [hv], fun _ => rfl⟩
  | some v =>
    rw [hv] at h
    have h' : (match astypeCell t v with
        | Except.error e => (Except.error e : Except String (List Val))
        | Except.ok v' => Except.ok (r.set i v')) = Except.ok r' := h
    clear h
    cases ha : astypeCell t v with
    | error e => rw [ha] at h'; cases h'
    | ok v' =>
      rw [ha] at h'
      cases h'
      have hi : i < r.length := by
        by_contra hle
        rw [List.getElem?_eq_none (by omega)] at hv
        cases hv
      refine ⟨fun j hj => List.getElem?_set_ne (Ne.symm hj), ?_, ?_⟩
      · intro v0 hv0
        cases hv0
        exact ⟨v', ha, List.getElem?_set_self hi⟩
      · intro hnone
        cases hnone

theorem castColAt_ok {df df' : DF} {i : Nat} {t : Dtype}
    (h : castColAt df i t = Except.ok df') :
    df'.header = df.header ∧ df'.dtypes = df.dtypes.set i t ∧
    List.Forall₂ (fun r r' => castCell i t r = Except.ok r') df.rows df'.rows := by
  unfold castColAt at h
  cases hm : mapE (castCell i t) df.rows with
  | error e => rw [hm] at h; cases h
  | ok rows =>
    rw [hm] at h
    cases h
    exact ⟨rfl, rfl, mapE_forall₂ hm⟩

theorem forall₂_map_eq {α β γ : Type} {R : α → β → Prop} {l : List α}
    {l' : List β} (h : List.Forall₂ R l l') {f : α → γ} {g : β → γ}
    (hfg : ∀ a b, R a b → g b = f a) : l'.map g = l.map f := by
  induction h with
  | nil => rfl
  | cons hab h ih => simp [hfg _ _ hab, ih]

theorem forall₂_mem_right {α β : Type} {R : α → β → Prop} {l : List α}
    {l' : List β} (h : List.Forall₂ R l l') {b : β} (hb : b ∈ l') :
    ∃ a ∈ l, R a b := by
  induction h with
  | nil => cases hb
  | cons hR _ ih =>
    rcases List.mem_cons.1 hb with rfl | hb'
    · exact ⟨_, List.mem_cons_self _ _, hR⟩
    · obtain ⟨a, ha, hRa⟩ := ih hb'
      exact ⟨a, List.mem_cons_of_mem _ ha, hRa⟩

theorem castColAt_colVals_ne {df df' : DF} {i j : Nat} {t : Dtype}
    (h : castColAt df i t = Except.ok df') (hij : j ≠ i) :
    colVals df' j = colVals df j :=
  forall₂_map_eq (castColAt_ok h).2.2 (fun _ _ hc => (castCell_ok hc).1 j hij)

theorem colShape_of_colVals_eq {df df' : DF} {j : Nat} {t : Dtype}
    (hv : colVals df' j = colVals df j) (hs : colShape df j t) :
    colShape df' j t := by
  intro r' hr' v hv'
  have hmem : some v ∈ colVals df j := by
    rw [← hv, ← hv']
    exact List.mem_map_of_mem _ hr'
  obtain ⟨r, hr, hrj⟩ := List.mem_map.1 hmem
  exact hs r hr v hrj

theorem exists_cell_of_colVals_eq {df df' : DF} {j : Nat} {v : Val}
    (hv : colVals df' j = colVals df j) {row : List Val}
    (hrow : row ∈ df.rows) (hcell : row[j]? = some v) :
    ∃ row' ∈ df'.rows, row'[j]? = some v := by
  have hmem : some v ∈ colVals df' j := by
    rw [hv, ← hcell]
    exact List.mem_map_of_mem _ hrow
  obtain ⟨r', hr', hrj⟩ := List.mem_map.1 hmem
  exact ⟨r', hr', hrj⟩

theorem castColAt_colShape_self {df df' : DF} {i : Nat} {t : Dtype}
    (h : castColAt df i t = Except.ok df')
    (ht : t = Dtype.dInt8 ∨ t = Dtype.dFloat32 ∨ t = Dtype.dStr) :
    colShape df' i t := by
  intro r' hr' v hv
  obtain ⟨r, hr, hcast⟩ := forall₂_mem_right (castColAt_ok h).2.2 hr'
  cases hri : r[i]? with
  | none =>
    have := (castCell_ok hcast).2.2 hri
    subst this
    rw [hri] at hv
    cases hv
  | some v0 =>
    obtain ⟨v', hast, hv'⟩ := (castCell_ok hcast).2.1 v0 hri
    rw [hv'] at hv
    cases hv
    exact astypeCell_shape ht hast

theorem castCols_colVals {df df' : DF} {names : List String} {t : Dtype}
    (h : castCols df names t = Except.ok df') :
    df'.header = df.header ∧
    ∀ j, (∀ c ∈ names, df.header.indexOf c ≠ j) →
      colVals df' j = colVals df j := by
  induction names generalizing df with
  | nil =>
    unfold castCols at h
    cases h
    exact ⟨rfl, fun j _ => rfl⟩
  | cons c cs ih =>
    unfold castCols at h
    cases hcc : castColAt df (df.header.indexOf c) t with
    | error e => rw [hcc] at h; cases h
    | ok df1 =>
      rw [hcc] at h
      obtain ⟨hh1, hd1, -⟩ := castColAt_ok hcc
      obtain ⟨hh2, hunt⟩ := ih h
      refine ⟨hh2.trans hh1, fun j hj => ?_⟩
      have h1 : colVals df1 j = colVals df j :=
        castColAt_colVals_ne hcc (Ne.symm (hj c (List.mem_cons_self c cs)))
      have h2 : colVals df' j = colVals df1 j :=
        hunt j (fun c' hc' => by rw [hh1]; exact hj c' (List.mem_cons_of_mem c hc'))
      exact h2.trans h1

theorem castCols_ok {df df' : DF} {names : List String} {t : Dtype}
    (h : castCols df names t = Except.ok df')
    (hpres : ∀ c ∈ names, c ∈ df.header)
    (hlen : df.dtypes.length = df.header.length)
    (ht : t = Dtype.dInt8 ∨ t = Dtype.dFloat32 ∨ t = Dtype.dStr) :
    df'.dtypes.length = df.dtypes.length ∧
    (∀ c ∈ names, df'.dtypes[df.header.indexOf c]? = some t ∧
      colShape df' (df.header.indexOf c) t) ∧
    (∀ j, (∀ c ∈ names, df.header.indexOf c ≠ j) →
      df'.dtypes[j]? = df.dtypes[j]?) := by
  induction names generalizing df with
  | nil =>
    unfold castCols at h
    cases h
    exact ⟨rfl, fun c hc => absurd hc (List.not_mem_nil c), fun j _ => rfl⟩
  | cons c cs ih =>
    unfold castCols at h
    cases hcc : castColAt df (df.header.indexOf c) t with
    | error e => rw [hcc] at h; cases h
    | ok df1 =>
      rw [hcc] at h
      obtain ⟨hh1, hd1, -⟩ := castColAt_ok hcc
      have hcm : c ∈ df.header := hpres c (List.mem_cons_self c cs)
      have hidx : df.header.indexOf c < df.header.length :=
        List.indexOf_lt_length.2 hcm
      have hlen1 : df1.dtypes.length = df1.header.length := by
        rw [hh1, hd1, List.length_set]; exact hlen
      have hpres1 : ∀ c' ∈ cs, c' ∈ df1.header := by
        intro c' hc'
        rw [hh1]
        exact hpres c' (List.mem_cons_of_mem c hc')
      obtain ⟨ihlen, ihname, ihunt⟩ := ih h hpres1 hlen1
      have hlentot : df'.dtypes.length = df.dtypes.length := by
        rw [ihlen, hd1, List.length_set]
      have hsame : ∀ c' ∈ cs, df1.header.indexOf c' = df.header.indexOf c' := by
        intro c' _; rw [hh1]
      -- index of the head column is not hit by distinct tail columns
      have hkey : ∀ c' ∈ cs, c' ∉ ([c] : List String) →
          df1.header.indexOf c' ≠ df.header.indexOf c := by
        intro c' hc' hne
        rw [hsame c' hc']
        intro heq
        have : c' = c := (List.indexOf_inj
          (hpres c' (List.mem_cons_of_mem c hc')) hcm).1 heq
        exact hne (this ▸ List.mem_cons_self c [])
      refine ⟨hlentot, ?_, ?_⟩
      · intro c0 hc0
        rcases List.mem_cons.1 hc0 with rfl | hc0s
        · by_cases hcs : c0 ∈ cs
          · have := ihname c0 hcs
            rw [hsame c0 hcs] at this
            exact this
          · have hmiss : ∀ c' ∈ cs, df1.header.indexOf c' ≠ df.header.indexOf c0 := by
              intro c' hc'
              refine hkey c' hc' (fun hmem => ?_)
              rcases List.mem_cons.1 hmem with rfl | habs
              · exact hcs hc'
              · cases habs
            constructor
            · rw [ihunt _ hmiss, hd1]
              exact List.getElem?_set_self (by rw [hlen]; exact hidx)
            · have hshape1 : colShape df1 (df.header.indexOf c0) t :=
                castColAt_colShape_self hcc ht
              have hcv : colVals df' (df.header.indexOf c0) =
                  colVals df1 (df.header.indexOf c0) :=
                (castCols_colVals h).2 _ hmiss
              exact colShape_of_colVals_eq hcv hshape1
        · have := ihname c0 hc0s
          rw [hsame c0 hc0s] at this
          exact this
      · intro j hj
        have hj1 : ∀ c' ∈ cs, df1.header.indexOf c' ≠ j := by
          intro c' hc'
          rw [hsame c' hc']
          exact hj c' (List.mem_cons_of_mem c hc')
        rw [ihunt j hj1, hd1]
        exact List.getElem?_set_ne (hj c (List.mem_cons_self c cs))

/-- The successful result of one group assignment of `convert_dtypes`. -/
theorem castGroup_ok {df df' : DF} {names : List String} {t : Dtype}
    (h : castGroup df names t = Except.ok df') :
    (names = [] ∧ df' = df) ∨
    ((∀ c ∈ names, c ∈ df.header) ∧ castCols df names t = Except.ok df') := by
  unfold castGroup at h
  split at h
  next hempty =>
    left
    cases h
    exact ⟨List.isEmpty_iff.1 hempty, rfl⟩
  next =>
    split at h
    next hall =>
      right
      refine ⟨?_, h⟩
      intro c hc
      exact of_decide_eq_true (List.all_eq_true.1 hall c hc)
    next => cases h

theorem castGroup_spec {df df' : DF} {names : List String} {t : Dtype}
    (h : castGroup df names t = Except.ok df')
    (hlen : df.dtypes.length = df.header.length)
    (ht : t = Dtype.dInt8 ∨ t = Dtype.dFloat32 ∨ t = Dtype.dStr) :
    df'.header = df.header ∧ df'.dtypes.length = df.dtypes.length ∧
    (∀ c ∈ names, c ∈ df.header) ∧
    (∀ c ∈ names, df'.dtypes[df.header.indexOf c]? = some t ∧
      colShape df' (df.header.indexOf c) t) ∧
    (∀ j, (∀ c ∈ names, df.header.indexOf c ≠ j) →
      df'.dtypes[j]? = df.dtypes[j]? ∧ colVals df' j = colVals df j) := by
  rcases castGroup_ok h with ⟨rfl, rfl⟩ | ⟨hpres, hcols⟩
  · exact ⟨rfl, rfl, fun c hc => absurd hc (List.not_mem_nil c),
      fun c hc => absurd hc (List.not_mem_nil c), fun j _ => ⟨rfl, rfl⟩⟩
  · obtain ⟨hh, hcv⟩ := castCols_colVals hcols
    obtain ⟨hl, hname, hunt⟩ := castCols_ok hcols hpres hlen ht
    exact ⟨hh, hl, hpres, hname, fun j hj => ⟨hunt j hj, hcv j hj⟩⟩

theorem convert_dtypes_eq (df : DF) (ints flts strs : List String) :
    convert_dtypes df [ints, flts, strs] =
      andThenE (castGroup df ints Dtype.dInt8) fun df1 =>
      andThenE (castGroup df1 flts Dtype.dFloat32) fun df2 =>
      castGroup df2 strs Dtype.dStr := by
  cases h1 : castGroup df ints Dtype.dInt8 with
  | error e => simp only [convert_dtypes, andThenE, h1]
  | ok df1 =>
    cases h2 : castGroup df1 flts Dtype.dFloat32 with
    | error e => simp only [convert_dtypes, andThenE, h1, h2]
    | ok df2 => simp only [convert_dtypes, andThenE, h1, h2]

/-- C2: a successful `convert_dtypes` gives every column of the integer
group the int8 dtype with every stored value in the signed 8-bit range,
every float-group column the float32 dtype with float-shaped values, every
string-group column the str dtype with string values, and leaves every
column named in none of the three groups exactly as it was — same dtype and
same cell values (groups disjoint as `get_dtypes` produces them). -/
theorem convert_dtypes_type_invariant (df df' : DF)
    (ints flts strs : List String)
    (hlen : df.dtypes.length = df.header.length)
    (hif : ∀ c ∈ ints, c ∉ flts) (his : ∀ c ∈ ints, c ∉ strs)
    (hfs : ∀ c ∈ flts, c ∉ strs)
    (hok : convert_dtypes df [ints, flts, strs] = Except.ok df') :
    df'.header = df.header ∧
    (∀ c ∈ ints, df'.dtypes[df.header.indexOf c]? = some Dtype.dInt8 ∧
      colShape df' (df.header.indexOf c) Dtype.dInt8) ∧
    (∀ c ∈ flts, df'.dtypes[df.header.indexOf c]? = some Dtype.dFloat32 ∧
      colShape df' (df.header.indexOf c) Dtype.dFloat32) ∧
    (∀ c ∈ strs, df'.dtypes[df.header.indexOf c]? = some Dtype.dStr ∧
      colShape df' (df.header.indexOf c) Dtype.dStr) ∧
    (∀ j, j < df.header.length →
      (∀ c, df.header[j]? = some c → c ∉ ints ∧ c ∉ flts ∧ c ∉ strs) →
      df'.dtypes[j]? = df.dtypes[j]? ∧ colVals df' j = colVals df j) := by
  rw [convert_dtypes_eq] at hok
  cases h1 : castGroup df ints Dtype.dInt8 with
  | error e => rw [h1] at hok; cases hok
  | ok df1 =>
    rw [h1, andThenE_ok] at hok
    cases h2 : castGroup df1 flts Dtype.dFloat32 with
    | error e => rw [h2] at hok; cases hok
    | ok df2 =>
      rw [h2, andThenE_ok] at hok
      obtain ⟨hh1, hl1, hp1, hn1, hu1⟩ := castGroup_spec h1 hlen (Or.inl rfl)
      have hlen1 : df1.dtypes.length = df1.header.length := by
        rw [hh1, hl1]; exact hlen
      obtain ⟨hh2, hl2, hp2, hn2, hu2⟩ :=
        castGroup_spec h2 hlen1 (Or.inr (Or.inl rfl))
      have hlen2 : df2.dtypes.length = df2.header.length := by
        rw [hh2, hl2]; exact hlen1
      obtain ⟨hh3, hl3, hp3, hn3, hu3⟩ :=
        castGroup_spec hok hlen2 (Or.inr (Or.inr rfl))
      have hp2' : ∀ c ∈ flts, c ∈ df.header := fun c hc => hh1 ▸ hp2 c hc
      have hp3' : ∀ c ∈ strs, c ∈ df.header := by
        intro c hc
        have := hp3 c hc
        rw [hh2, hh1] at this
        exact this
      have hidx1 : ∀ (c : String), df1.header.indexOf c = df.header.indexOf c :=
        fun c => by rw [hh1]
      have hidx2 : ∀ (c : String), df2.header.indexOf c = df.header.indexOf c :=
        fun c => by rw [hh2, hh1]
      refine ⟨by rw [hh3, hh2, hh1], ?_, ?_, ?_, ?_⟩
      · -- integer-group columns survive the float and str groups untouched
        intro c hc
        have hcm : c ∈ df.header := hp1 c hc
        obtain ⟨hd1, hs1⟩ := hn1 c hc
        have hmiss2 : ∀ c' ∈ flts, df1.header.indexOf c' ≠ df.header.indexOf c := by
          intro c' hc' heq
          rw [hidx1] at heq
          have : c' = c := (List.indexOf_inj (hp2' c' hc') hcm).1 heq
          exact hif c hc (this ▸ hc')
        obtain ⟨hd2, hv2⟩ := hu2 _ hmiss2
        have hmiss3 : ∀ c' ∈ strs, df2.header.indexOf c' ≠ df.header.indexOf c := by
          intro c' hc' heq
          rw [hidx2] at heq
          have : c' = c := (List.indexOf_inj (hp3' c' hc') hcm).1 heq
          exact his c hc (this ▸ hc')
        obtain ⟨hd3, hv3⟩ := hu3 _ hmiss3
        exact ⟨by rw [hd3, hd2, hd1],
          colShape_of_colVals_eq hv3 (colShape_of_colVals_eq hv2 hs1)⟩
      · -- float-group columns survive the str group untouched
        intro c hc
        have hcm : c ∈ df.header := hp2' c hc
        have := hn2 c hc
        rw [hidx1] at this
        obtain ⟨hd2, hs2⟩ := this
        have hmiss3 : ∀ c' ∈ strs, df2.header.indexOf c' ≠ df.header.indexOf c := by
          intro c' hc' heq
          rw [hidx2] at heq
          have : c' = c := (List.indexOf_inj (hp3' c' hc') hcm).1 heq
          exact hfs c hc (this ▸ hc')
        obtain ⟨hd3, hv3⟩ := hu3 _ hmiss3
        exact ⟨by rw [hd3, hd2], colShape_of_colVals_eq hv3 hs2⟩
      · intro c hc
        have := hn3 c hc
        rw [hidx2] at this
        exact this
      · intro j hjlt hnone
        have hci : ∀ c ∈ ints, df.header.indexOf c ≠ j := by
          intro c hc heq
          have : df.header[j]? = some c := heq ▸ List.getElem?_indexOf (hp1 c hc)
          exact (hnone c this).1 hc
        have hcf : ∀ c ∈ flts, df1.header.indexOf c ≠ j := by
          intro c hc
          rw [hidx1]
          intro heq
          have : df.header[j]? = some c := heq ▸ List.getElem?_indexOf (hp2' c hc)
          exact (hnone c this).2.1 hc
        have hcs : ∀ c ∈ strs, df2.header.indexOf c ≠ j := by
          intro c hc
          rw [hidx2]
          intro heq
          have : df.header[j]? = some c := heq ▸ List.getElem?_indexOf (hp3' c hc)
          exact (hnone c this).2.2 hc
        obtain ⟨ha1, hb1⟩ := hu1 j hci
        obtain ⟨ha2, hb2⟩ := hu2 j hcf
        obtain ⟨ha3, hb3⟩ := hu3 j hcs
        exact ⟨by rw [ha3, ha2, ha1], by rw [hb3, hb2, hb1]⟩

/-- C2 witness: a frame with one column per group and one undeclared
column converts successfully and keeps its header. -/
theorem convert_dtypes_type_invariant_witness :
    (DF.mk ["i", "f", "s", "u"]
      [Dtype.dInt8, Dtype.dFloat32, Dtype.dStr, Dtype.dStr]
      [[Val.vInt 5, Val.vFloat (some 1), Val.vStr "a", Val.vStr "keep"]]).header =
    (DF.mk ["i", "f", "s", "u"]
      [Dtype.dInt64, Dtype.dFloat64, Dtype.dStr, Dtype.dStr]
      [[Val.vInt 5, Val.vFloat (some 1), Val.vStr "a", Val.vStr "keep"]]).header :=
  (convert_dtypes_type_invariant
    (DF.mk ["i", "f", "s", "u"]
      [Dtype.dInt64, Dtype.dFloat64, Dtype.dStr, Dtype.dStr]
      [[Val.vInt 5, Val.vFloat (some 1), Val.vStr "a", Val.vStr "keep"]])
    (DF.mk ["i", "f", "s", "u"]
      [Dtype.dInt8, Dtype.dFloat32, Dtype.dStr, Dtype.dStr]
      [[Val.vInt 5, Val.vFloat (some 1), Val.vStr "a", Val.vStr "keep"]])
    ["i"] ["f"] ["s"] (by decide) (by decide) (by decide) (by decide)
    (by decide)).1

/-- C5: an empty type group is a no-op that raises nothing — the group
assignment returns the frame unchanged — and under an empty integer group
every column outside the float and string groups (in particular every
existing integer column) keeps its dtype and its values. -/
theorem convert_dtypes_empty_group_noop (df df' : DF) (flts strs : List String)
    (hlen : df.dtypes.length = df.header.length)
    (hok : convert_dtypes df [[], flts, strs] = Except.ok df') :
    (∀ (g : DF) (t : Dtype), castGroup g [] t = Except.ok g) ∧
    df'.header = df.header ∧
    (∀ j, j < df.header.length →
      (∀ c, df.header[j]? = some c → c ∉ flts ∧ c ∉ strs) →
      df'.dtypes[j]? = df.dtypes[j]? ∧ colVals df' j = colVals df j) := by
  have hnoop : ∀ (g : DF) (t : Dtype), castGroup g [] t = Except.ok g :=
    fun g t => rfl
  rw [convert_dtypes_eq, hnoop df Dtype.dInt8, andThenE_ok] at hok
  cases h2 : castGroup df flts Dtype.dFloat32 with
  | error e => rw [h2] at hok; cases hok
  | ok df2 =>
    rw [h2, andThenE_ok] at hok
    obtain ⟨hh2, hl2, hp2, -, hu2⟩ :=
      castGroup_spec h2 hlen (Or.inr (Or.inl rfl))
    have hlen2 : df2.dtypes.length = df2.header.length := by
      rw [hh2, hl2]; exact hlen
    obtain ⟨hh3, hl3, hp3, -, hu3⟩ :=
      castGroup_spec hok hlen2 (Or.inr (Or.inr rfl))
    have hp3' : ∀ c ∈ strs, c ∈ df.header := fun c hc => by
      have := hp3 c hc
      rw [hh2] at this
      exact this
    refine ⟨hnoop, by rw [hh3, hh2], ?_⟩
    intro j hjlt hnone
    have hcf : ∀ c ∈ flts, df.header.indexOf c ≠ j := by
      intro c hc heq
      have : df.header[j]? = some c := heq ▸ List.getElem?_indexOf (hp2 c hc)
      exact (hnone c this).1 hc
    have hcs : ∀ c ∈ strs, df2.header.indexOf c ≠ j := by
      intro c hc
      rw [hh2]
      intro heq
      have : df.header[j]? = some c := heq ▸ List.getElem?_indexOf (hp3' c hc)
      exact (hnone c this).2 hc
    obtain ⟨ha2, hb2⟩ := hu2 j hcf
    obtain ⟨ha3, hb3⟩ := hu3 j hcs
    exact ⟨by rw [ha3, ha2], by rw [hb3, hb2]⟩

/-- C5 witness: with an empty integer group, an existing integer-typed
column keeps its values through `convert_dtypes`. -/
theorem convert_dtypes_empty_group_noop_witness :
    colVals (DF.mk ["i", "f"] [Dtype.dInt64, Dtype.dFloat32]
        [[Val.vInt 7, Val.vFloat (some 2)]]) 0 =
      colVals (DF.mk ["i", "f"] [Dtype.dInt64, Dtype.dFloat64]
        [[Val.vInt 7, Val.vFloat (some 2)]]) 0 :=
  ((convert_dtypes_empty_group_noop
    (DF.mk ["i", "f"] [Dtype.dInt64, Dtype.dFloat64]
      [[Val.vInt 7, Val.vFloat (some 2)]])
    (DF.mk ["i", "f"] [Dtype.dInt64, Dtype.dFloat32]
      [[Val.vInt 7, Val.vFloat (some 2)]])
    ["f"] [] (by decide) (by decide)).2.2 0 (by decide)
    (by decide)).2

/-! ### C4: what `convert_dtypes` does with unrepresentable values -/

/-- C4 counterexample: a fragment whose int8-group column holds 300 — a
value outside the signed 8-bit range — does not raise: `convert_dtypes`
silently wraps it to 44 (300 mod 2^8, interpreted signed) and succeeds. -/
theorem convert_dtypes_wraps_out_of_range :
    convert_dtypes (DF.mk ["a"] [Dtype.dInt64] [[Val.vInt 300]])
        [["a"], [], []] =
      Except.ok (DF.mk ["a"] [Dtype.dInt8] [[Val.vInt 44]]) := by decide

theorem astypeCell_float_text_error {s : String}
    (hparse : parseFloatStr s = none) (hnan : s ≠ "nan") :
    ∀ v', astypeCell Dtype.dFloat32 (Val.vStr s) ≠ Except.ok v' := by
  intro v' h
  have h' : (if s = "nan" then Except.ok (Val.vFloat none)
      else match parseFloatStr s with
        | some q => Except.ok (Val.vFloat (some q))
        | none =>
          (Except.error "ValueError: could not convert string to float" :
            Except String Val)) = Except.ok v' := h
  rw [if_neg hnan, hparse] at h'
  cases h'

theorem castCols_not_ok {names : List String} {df : DF} {t : Dtype}
    {c : String} {v : Val}
    (hpres : ∀ c' ∈ names, c' ∈ df.header)
    (hc : c ∈ names)
    (hbadrow : ∃ row ∈ df.rows, row[df.header.indexOf c]? = some v)
    (hbad : ∀ v', astypeCell t v ≠ Except.ok v') :
    ∀ df', castCols df names t ≠ Except.ok df' := by
  induction names generalizing df with
  | nil => cases hc
  | cons c0 cs ih =>
    intro df' h
    unfold castCols at h
    cases hcc : castColAt df (df.header.indexOf c0) t with
    | error e => rw [hcc] at h; cases h
    | ok df1 =>
      rw [hcc] at h
      obtain ⟨hh1, -, hf⟩ := castColAt_ok hcc
      by_cases hc0 : c0 = c
      · subst hc0
        obtain ⟨row, hrm, hcell⟩ := hbadrow
        obtain ⟨r', hr', hcast⟩ := forall₂_mem_left hf hrm
        obtain ⟨v', hast, -⟩ := (castCell_ok hcast).2.1 v hcell
        exact hbad v' hast
      · have hcs : c ∈ cs := by
          rcases List.mem_cons.1 hc with rfl | h'
          · exact absurd rfl hc0
          · exact h'
        have hcmem : c ∈ df.header := hpres c hc
        have hc0mem : c0 ∈ df.header := hpres c0 (List.mem_cons_self c0 cs)
        have hne : df.header.indexOf c ≠ df.header.indexOf c0 := by
          intro he
          exact hc0 ((List.indexOf_inj hcmem hc0mem).1 he).symm
        have hcv : colVals df1 (df.header.indexOf c) =
            colVals df (df.header.indexOf c) :=
          castColAt_colVals_ne hcc hne
        obtain ⟨row, hrm, hcell⟩ := hbadrow
        obtain ⟨row1, hrm1, hcell1⟩ := exists_cell_of_colVals_eq hcv hrm hcell
        refine ih (fun c' hc' => ?_) hcs ⟨row1, hrm1, ?_⟩ df' h
        · rw [hh1]
          exact hpres c' (List.mem_cons_of_mem c0 hc')
        · rw [hh1]
          exact hcell1

/-- C4 amended: `convert_dtypes` does raise for text that does not parse as
a number in a float-group column — the error propagates and the call never
returns a frame — but an out-of-range integer in an int8-group column is
silently wrapped modulo 2^8 rather than raising
(`convert_dtypes_wraps_out_of_range`). -/
theorem convert_dtypes_raises_on_float_text (df : DF)
    (ints flts strs : List String) (c s : String) (row : List Val)
    (hc : c ∈ flts) (hci : c ∉ ints)
    (hrow : row ∈ df.rows)
    (hcell : row[df.header.indexOf c]? = some (Val.vStr s))
    (hparse : parseFloatStr s = none) (hnan : s ≠ "nan") :
    ∀ df', convert_dtypes df [ints, flts, strs] ≠ Except.ok df' := by
  intro df' hok
  rw [convert_dtypes_eq] at hok
  cases h1 : castGroup df ints Dtype.dInt8 with
  | error e => rw [h1, andThenE_error] at hok; cases hok
  | ok df1 =>
    rw [h1, andThenE_ok] at hok
    cases h2 : castGroup df1 flts Dtype.dFloat32 with
    | error e => rw [h2, andThenE_error] at hok; cases hok
    | ok df2 =>
      have hh1 : df1.header = df.header := by
        rcases castGroup_ok h1 with ⟨-, rfl⟩ | ⟨-, hcols⟩
        · rfl
        · exact (castCols_colVals hcols).1
      rcases castGroup_ok h2 with ⟨hfnil, -⟩ | ⟨hpres2, hcols2⟩
      · rw [hfnil] at hc; cases hc
      · have hcmem : c ∈ df.header := by
          rw [← hh1]; exact hpres2 c hc
        have hcv : colVals df1 (df.header.indexOf c) =
            colVals df (df.header.indexOf c) := by
          rcases castGroup_ok h1 with ⟨-, rfl⟩ | ⟨hpres1, hcols1⟩
          · rfl
          · refine (castCols_colVals hcols1).2 _ ?_
            intro c' hc' heq
            have : c' = c := (List.indexOf_inj (hpres1 c' hc') hcmem).1 heq
            exact hci (this ▸ hc')
        obtain ⟨row1, hrm1, hcell1⟩ := exists_cell_of_colVals_eq hcv hrow hcell
        refine castCols_not_ok hpres2 hc ⟨row1, hrm1, ?_⟩
          (astypeCell_float_text_error hparse hnan) df2 hcols2
        rw [hh1]
        exact hcell1

/-- C4 amended witness: a float-group column holding the text "abc" makes
`convert_dtypes` fail rather than return. -/
theorem convert_dtypes_raises_on_float_text_witness :
    convert_dtypes (DF.mk ["f"] [Dtype.dStr] [[Val.vStr "abc"]])
        [[], ["f"], []] ≠
      Except.ok (DF.mk ["f"] [Dtype.dFloat32] [[Val.vStr "abc"]]) :=
  convert_dtypes_raises_on_float_text
    (DF.mk ["f"] [Dtype.dStr] [[Val.vStr "abc"]]) [] ["f"] [] "f" "abc"
    [Val.vStr "abc"] (by decide) (by decide) (by decide) (by decide)
    (by decide) (by decide) _

/-! ### C1: left joins with unique reference keys preserve fact rows -/

theorem length_filter_le_one_of_nodup_map {α β : Type} [DecidableEq β]
    {f : α → β} {l : List α} (h : (l.map f).Nodup) (t : β) :
    (l.filter (fun a => decide (f a = t))).length ≤ 1 := by
  induction l with
  | nil => simp
  | cons a l ih =>
    simp only [List.map_cons, List.nodup_cons] at h
    obtain ⟨hnotin, hnd⟩ := h
    by_cases ha : f a = t
    · have hnil : l.filter (fun a => decide (f a = t)) = [] := by
        rw [List.filter_eq_nil_iff]
        intro x hx hfx
        simp only [decide_eq_true_eq] at hfx
        exact hnotin (hfx.trans ha.symm ▸ List.mem_map_of_mem f hx)
      simp [List.filter_cons, ha, hnil]
    · simp only [List.filter_cons, ha, decide_False]
      simpa using ih hnd

theorem joinRowsFor_singleton (l r : DF) (ks : List String) (lrow : List Val)
    (huniq : uniqueKey r ks) :
    ∃ t, joinRowsFor l r ks lrow = [lrow ++ t] := by
  unfold joinRowsFor rightMatches
  have hle := length_filter_le_one_of_nodup_map huniq
    (keyTuple l.header ks lrow)
  cases hm : r.rows.filter (fun rrow =>
      decide (keyTuple r.header ks rrow = keyTuple l.header ks lrow)) with
  | nil =>
    exact ⟨List.replicate (residualHeader r.header ks).length nullVal,
      by simp [hm]⟩
  | cons m ms =>
    rw [hm] at hle
    simp only [List.length_cons] at hle
    have : ms = [] := List.eq_nil_of_length_eq_zero (by omega)
    subst this
    exact ⟨residualRow r.header ks m, by simp [hm]⟩

theorem flatMap_singleton_forall₂ {α : Type} {rows : List (List α)}
    {f : List α → List (List α)}
    (h : ∀ a ∈ rows, ∃ t, f a = [a ++ t]) :
    List.Forall₂ (fun a b => ∃ t, b = a ++ t) rows (rows.flatMap f) := by
  induction rows with
  | nil => exact List.Forall₂.nil
  | cons a l ih =>
    obtain ⟨t, ht⟩ := h a (List.mem_cons_self a l)
    rw [List.flatMap_cons, ht]
    exact List.Forall₂.cons ⟨t, rfl⟩ (ih fun x hx => h x (List.mem_cons_of_mem a hx))

theorem leftJoin_rows_unique {l r : DF} {ks : List String} {j : DF}
    (hok : leftJoin l r ks = Except.ok j) (huniq : uniqueKey r ks) :
    List.Forall₂ (fun a b => ∃ t, b = a ++ t) l.rows j.rows := by
  unfold leftJoin at hok
  split at hok
  · cases hok
    exact flatMap_singleton_forall₂
      (fun a _ => joinRowsFor_singleton l r ks a huniq)
  · cases hok

theorem forall₂_append_trans {α : Type} {l m n : List (List α)}
    (h1 : List.Forall₂ (fun a b => ∃ t, b = a ++ t) l m)
    (h2 : List.Forall₂ (fun a b => ∃ t, b = a ++ t) m n) :
    List.Forall₂ (fun a b => ∃ t, b = a ++ t) l n := by
  induction h1 generalizing n with
  | nil => cases h2; exact List.Forall₂.nil
  | cons hab h ih =>
    cases h2 with
    | cons hbc h2' =>
      obtain ⟨t1, rfl⟩ := hab
      obtain ⟨t2, rfl⟩ := hbc
      exact List.Forall₂.cons ⟨t1 ++ t2, List.append_assoc _ _ _⟩ (ih h2')

theorem enrich_forall₂ {F E : DF} {R : List (DF × List String)}
    (hok : enrich F R = Except.ok E)
    (huniq : ∀ p ∈ R, uniqueKey p.1 p.2) :
    List.Forall₂ (fun a b => ∃ t, b = a ++ t) F.rows E.rows := by
  induction R generalizing F with
  | nil =>
    unfold enrich at hok
    cases hok
    exact List.forall₂_same.2 (fun a _ => ⟨[], (List.append_nil a).symm⟩)
  | cons p R ih =>
    unfold enrich at hok
    cases hj : leftJoin F p.1 p.2 with
    | error e => rw [hj] at hok; cases hok
    | ok F' =>
      rw [hj] at hok
      exact forall₂_append_trans
        (leftJoin_rows_unique hj (huniq p (List.mem_cons_self p R)))
        (ih hok (fun q hq => huniq q (List.mem_cons_of_mem p hq)))

theorem forall₂_take_map {α : Type} {n : Nat} {l m : List (List α)}
    (h : List.Forall₂ (fun a b => ∃ t, b = a ++ t) l m)
    (hwf : ∀ row ∈ l, row.length = n) :
    m.map (List.take n) = l := by
  induction h with
  | nil => rfl
  | cons hab h ih =>
    obtain ⟨t, rfl⟩ := hab
    simp only [List.map_cons, List.cons.injEq]
    refine ⟨List.take_left' (hwf _ (List.mem_cons_self _ _)), ?_⟩
    exact ih (fun row hrow => hwf row (List.mem_cons_of_mem _ hrow))

/-- C1: when every reference table of the join graph has unique join keys,
the ordered sequence of left-outer merges applied to a fact fragment keeps
exactly the fragment's rows: the enriched fragment has the same number of
rows, and truncating each enriched row to the fact columns returns the
original rows in their original order — nothing is dropped, duplicated or
reordered. -/
theorem enrich_preserves_fact_rows (F E : DF) (R : List (DF × List String))
    (huniq : ∀ p ∈ R, uniqueKey p.1 p.2)
    (hwf : ∀ row ∈ F.rows, row.length = F.header.length)
    (hok : enrich F R = Except.ok E) :
    E.rows.length = F.rows.length ∧
    E.rows.map (List.take F.header.length) = F.rows := by
  have h := enrich_forall₂ hok huniq
  exact ⟨(List.Forall₂.length_eq h).symm, forall₂_take_map h hwf⟩

/-- C1 witness: a three-row fragment with codes A, B, C joined against a
reference table holding A and B keeps all three rows in order (the C row
acquiring a NaN description). -/
theorem enrich_preserves_fact_rows_witness :
    (DF.mk ["code", "descr", "extra"] [Dtype.dStr, Dtype.dStr, Dtype.dStr]
        [[Val.vStr "A", Val.vStr "Alpha", Val.vStr "x"],
         [Val.vStr "B", Val.vStr "Beta", Val.vStr "y"],
         [Val.vStr "C", nullVal, nullVal]]).rows.length =
      (DF.mk ["code"] [Dtype.dStr]
        [[Val.vStr "A"], [Val.vStr "B"], [Val.vStr "C"]]).rows.length :=
  (enrich_preserves_fact_rows
    (DF.mk ["code"] [Dtype.dStr] [[Val.vStr "A"], [Val.vStr "B"], [Val.vStr "C"]])
    (DF.mk ["code", "descr", "extra"] [Dtype.dStr, Dtype.dStr, Dtype.dStr]
      [[Val.vStr "A", Val.vStr "Alpha", Val.vStr "x"],
       [Val.vStr "B", Val.vStr "Beta", Val.vStr "y"],
       [Val.vStr "C", nullVal, nullVal]])
    [(DF.mk ["code", "descr", "extra"] [Dtype.dStr, Dtype.dStr, Dtype.dStr]
        [[Val.vStr "A", Val.vStr "Alpha", Val.vStr "x"],
         [Val.vStr "B", Val.vStr "Beta", Val.vStr "y"]], ["code"])]
    (by decide) (by decide) (by decide)).1

/-! ### C3: the header-once invariant of the append loop -/

theorem writeFragments_false (cs : List DF) :
    writeFragments cs false = cs.flatMap dataLines := by
  induction cs with
  | nil => rfl
  | cons c cs ih =>
    simp [writeFragments, toCsvLines, ih]

theorem writeArchives_false (as : List (List DF)) :
    writeArchives as false = (as.flatMap id).flatMap dataLines := by
  induction as with
  | nil => rfl
  | cons a as ih =>
    simp [writeArchives, writeFragments_false, ih, List.flatMap_append]

theorem length_flatMap_eq_sum {α β : Type} (l : List α) (f : α → List β) :
    (l.flatMap f).length = (l.map (fun a => (f a).length)).sum := by
  induction l with
  | nil => rfl
  | cons a l ih => simp [ih]

theorem writeArchives_true (archives : List (List DF)) (c : DF) (cs : List DF)
    (hflat : archives.flatMap id = c :: cs) :
    writeArchives archives true = headerLine c :: (c :: cs).flatMap dataLines := by
  induction archives generalizing c cs with
  | nil => cases hflat
  | cons a as ih =>
    cases a with
    | nil =>
      simp only [List.flatMap_cons, id, List.nil_append] at hflat
      simp only [writeArchives, writeFragments, List.nil_append, List.isEmpty_nil,
        Bool.and_true]
      exact ih c cs hflat
    | cons d ds =>
      simp only [List.flatMap_cons, id, List.cons_append, List.cons.injEq] at hflat
      obtain ⟨rfl, rfl⟩ := hflat
      simp only [writeArchives, writeFragments, List.isEmpty_cons, Bool.and_false,
        writeArchives_false, writeFragments_false, toCsvLines, headerLine]
      simp [List.flatMap_append, dataLines]

/-- C3: consolidating any nonempty sequence of fragments (grouped into
archives, as `bls_cew_consolidate` reads them) emits exactly one header
line followed by every fragment's data lines in read order: the header
count is one and the data-line count is the sum of the fragments' row
counts, even when later fragments come from a second archive. -/
theorem header_once_invariant (archives : List (List DF)) (c : DF)
    (cs : List DF) (hflat : archives.flatMap id = c :: cs) :
    writeArchives archives true =
      headerLine c :: (c :: cs).flatMap dataLines ∧
    (writeArchives archives true).length =
      1 + ((c :: cs).map (fun d => d.rows.length)).sum := by
  have h1 := writeArchives_true archives c cs hflat
  refine ⟨h1, ?_⟩
  rw [h1]
  simp only [List.length_cons, length_flatMap_eq_sum]
  have : ∀ d : DF, (dataLines d).length = d.rows.length := by
    intro d; simp [dataLines]
  simp only [this, Nat.add_comm]

/-- C3 witness: two singleton archives (two zip files of one fragment each)
produce one header line and the two fragments' rows in order. -/
theorem header_once_invariant_witness :
    writeArchives
        [[DF.mk ["a"] [Dtype.dStr] [[Val.vStr "x"], [Val.vStr "y"]]],
         [DF.mk ["a"] [Dtype.dStr] [[Val.vStr "z"]]]] true =
      headerLine (DF.mk ["a"] [Dtype.dStr] [[Val.vStr "x"], [Val.vStr "y"]]) ::
        ([DF.mk ["a"] [Dtype.dStr] [[Val.vStr "x"], [Val.vStr "y"]],
          DF.mk ["a"] [Dtype.dStr] [[Val.vStr "z"]]].flatMap dataLines) :=
  (header_once_invariant _ _ _ (by decide)).1

/-! ### C6: reference-table validation in the bls:ce driver -/

/-- C6 counterexample: a reference table in violation of the claimed
validation — `ce.datatype` here is empty (zero rows, key column present) —
does not make the driver fail: `bls_ce_consolidate` runs to completion,
processes the fact fragment against the all-null enrichment and writes two
output lines (header plus one data row).  No non-emptiness check exists and
no SchemaMismatchError is raised before fragments are processed. -/
theorem bls_ce_empty_reference_not_rejected :
    Except.map List.length
      (bls_ce_consolidate exCeSeries exCeDataTypeEmpty exCeIndustry
        exCeSeason exCeSector exCePeriod exCeFact) = Except.ok 2 := by
  decide

/-- C6 amended: the driver performs no non-emptiness validation of the
loaded reference tables (an empty table silently join-misses into all-null
columns, `bls_ce_empty_reference_not_rejected`); what does hold is that a
reference table missing its expected join-key column makes the driver fail
with the merge KeyError during the reference-merge phase — before any fact
fragment is processed or any output line produced, whatever the other
tables and the fact table contain. -/
theorem bls_ce_missing_join_key_fails_first
    (series data_type industry_type season sector period fact : DF)
    (h : "data_type_code" ∉ data_type.header) :
    bls_ce_consolidate series data_type industry_type season sector period
        fact = Except.error "KeyError: merge key not found" := by
  have hj : leftJoin (renameCol series "footnote_codes" "footnote_code_series")
      data_type ["data_type_code"] =
      Except.error "KeyError: merge key not found" := by
    unfold leftJoin
    simp [h]
  simp only [bls_ce_consolidate, bls_ce_build_series]
  rw [hj]
  rfl

/-- C6 amended witness: with a datatype table lacking its key column, the
driver errors out even though every other table is well-formed. -/
theorem bls_ce_missing_join_key_fails_first_witness :
    bls_ce_consolidate exCeSeries
        (DF.mk ["wrong_name", "data_type_text"] [Dtype.dStr, Dtype.dStr] [])
        exCeIndustry exCeSeason exCeSector exCePeriod exCeFact =
      Except.error "KeyError: merge key not found" :=
  bls_ce_missing_join_key_fails_first exCeSeries
    (DF.mk ["wrong_name", "data_type_text"] [Dtype.dStr, Dtype.dStr] [])
    exCeIndustry exCeSeason exCeSector exCePeriod exCeFact (by decide)

/-! ### C9: the memory profile of the consolidation paths -/

/-- C9 counterexample: the epa:ucmr path materialises its entire fact data
in one in-memory frame.  On concrete inputs with two UCMR3 rows and one
UCMR2 row, the single frame `all` that `epa_ucmr_consolidate` builds before
writing holds all 3 fact rows — the two full tables concatenated — which is
exactly what the claim says no consolidation path does. -/
theorem epa_ucmr_materialises_full_table :
    Except.map (fun d => d.rows.length)
      (epa_ucmr_all exUcmrAll3 exUcmrDrt exUcmrZip exUcmrAll2) =
      Except.ok (exUcmrAll3.rows.length + exUcmrAll2.rows.length) := by
  decide

theorem leftJoin_ok_length {l r : DF} {ks : List String} {j : DF}
    (hok : leftJoin l r ks = Except.ok j) (huniq : uniqueKey r ks) :
    j.rows.length = l.rows.length :=
  (List.Forall₂.length_eq (leftJoin_rows_unique hok huniq)).symm

theorem chunksOfAux_length_le {α : Type} (fuel n : Nat) (l : List α) :
    ∀ c ∈ chunksOfAux fuel n l, c.length ≤ n := by
  induction fuel generalizing l with
  | zero => intro c hc; cases hc
  | succ fuel ih =>
    cases l with
    | nil => intro c hc; cases hc
    | cons a t =>
      intro c hc
      rcases List.mem_cons.1 hc with rfl | hc'
      · exact List.length_take_le n (a :: t)
      · exact ih _ c hc'

/-- C9 amended: the bls consolidation paths are fragment-bounded — every
fact chunk the 10000-row chunked read produces holds at most 10000 rows,
and only one chunk is in flight per loop step — but the epa:ucmr path is
not: the frame it materialises before writing holds the rows of both full
fact tables at once (its row count is the sum of the two tables' row
counts, growing with the total fact-table size rather than staying bounded
by a fragment). -/
theorem memory_bound_amended :
    (∀ (n : Nat) (rows : List (List Val)) (c : List (List Val)),
        c ∈ chunksOf n rows → c.length ≤ n) ∧
    (∀ all3 drt zipcodes all2 allDF : DF,
        uniqueKey drt epaJoinKeys → uniqueKey zipcodes ["PWSID"] →
        epa_ucmr_all all3 drt zipcodes all2 = Except.ok allDF →
        allDF.rows.length = all3.rows.length + all2.rows.length) := by
  constructor
  · intro n rows c hc
    unfold chunksOf at hc
    split at hc
    · cases hc
    · exact chunksOfAux_length_le rows.length n rows c hc
  · intro all3 drt zipcodes all2 allDF h1 h2 hok
    unfold epa_ucmr_all at hok
    cases hj1 : leftJoin all3 drt epaJoinKeys with
    | error e => rw [hj1, andThenE_error] at hok; cases hok
    | ok a3 =>
      rw [hj1, andThenE_ok] at hok
      cases hj2 : leftJoin a3 zipcodes ["PWSID"] with
      | error e => rw [hj2, andThenE_error] at hok; cases hok
      | ok a3' =>
        rw [hj2, andThenE_ok] at hok
        cases hj3 : leftJoin all2 zipcodes ["PWSID"] with
        | error e => rw [hj3, andThenE_error] at hok; cases hok
        | ok a2 =>
          rw [hj3, andThenE_ok] at hok
          cases hok
          have l1 := leftJoin_ok_length hj1 h1
          have l2 := leftJoin_ok_length hj2 h2
          have l3 := leftJoin_ok_length hj3 h2
          simp only [dfAppend, List.length_append, List.length_map]
          omega

/-- C9 amended witness: a one-row chunk produced by the 10000-row chunked
read respects the fragment bound. -/
theorem memory_bound_amended_witness :
    ([[Val.vInt 1]] : List (List Val)).length ≤ 10000 :=
  memory_bound_amended.1 10000 [[Val.vInt 1]] [[Val.vInt 1]] (by decide)

/-! ### C7: the forgiving `to_numeric` coercion of the bls:sm value column -/

theorem forall₂_map_self {α : Type} {R : α → α → Prop} {l : List α}
    {g : α → α} (h : ∀ a ∈ l, R a (g a)) : List.Forall₂ R l (l.map g) := by
  induction l with
  | nil => exact List.Forall₂.nil
  | cons a l ih =>
    exact List.Forall₂.cons (h a (List.mem_cons_self a l))
      (ih fun x hx => h x (List.mem_cons_of_mem a hx))

/-- C7: `bls_sm_consolidate`'s `to_numeric(errors='coerce')` step never
fails when the `value` column exists: row for row, every other column is
untouched, a parseable text value becomes its number, an unparseable text
value becomes NaN (missing) — and the coerced cell can never make the
subsequent strict float32 coercion of `convert_dtypes` fail, so no
unparseable value fails the fragment. -/
theorem bls_sm_value_coercion (df df' : DF)
    (hok : setValueNumeric df = Except.ok df') :
    df'.header = df.header ∧ df'.rows.length = df.rows.length ∧
    List.Forall₂ (fun r r' =>
      (∀ j, j ≠ df.header.indexOf "value" → r'[j]? = r[j]?) ∧
      (∀ s, r[df.header.indexOf "value"]? = some (Val.vStr s) →
        ((∀ q, parseFloatStr s = some q →
            r'[df.header.indexOf "value"]? = some (Val.vFloat (some q))) ∧
         (parseFloatStr s = none →
            r'[df.header.indexOf "value"]? = some (Val.vFloat none)))))
      df.rows df'.rows ∧
    (∀ v, ∃ v', astypeCell Dtype.dFloat32 (toNumericCell v) = Except.ok v') := by
  unfold setValueNumeric at hok
  split at hok
  case isFalse => cases hok
  case isTrue hmem =>
    cases hok
    refine ⟨rfl, by simp, ?_, ?_⟩
    · refine forall₂_map_self ?_
      intro r hr
      constructor
      · intro j hj
        cases hri : r[df.header.indexOf "value"]? with
        | none => rfl
        | some v => exact List.getElem?_set_ne (Ne.symm hj)
      · intro s hs
        have hilt : df.header.indexOf "value" < r.length := by
          by_contra hle
          rw [List.getElem?_eq_none (by omega)] at hs
          cases hs
        rw [hs]
        have hset : (r.set (df.header.indexOf "value")
            (toNumericCell (Val.vStr s)))[df.header.indexOf "value"]? =
            some (toNumericCell (Val.vStr s)) := List.getElem?_set_self hilt
        constructor
        · intro q hq
          rw [hset]
          simp only [toNumericCell, hq]
        · intro hq
          rw [hset]
          simp only [toNumericCell, hq]
    · intro v
      cases v with
      | vInt n => exact ⟨_, rfl⟩
      | vFloat x => exact ⟨_, rfl⟩
      | vStr s =>
        cases hp : parseFloatStr s with
        | none =>
          refine ⟨Val.vFloat none, ?_⟩
          have he : toNumericCell (Val.vStr s) = Val.vFloat none := by
            simp only [toNumericCell, hp]
          rw [he]
          rfl
        | some q =>
          refine ⟨Val.vFloat (some q), ?_⟩
          have he : toNumericCell (Val.vStr s) = Val.vFloat (some q) := by
            simp only [toNumericCell, hp]
          rw [he]
          rfl

/-- C7 witness: a fragment whose `value` column holds parseable text "35"
and unparseable text "n/a" coerces without failing. -/
theorem bls_sm_value_coercion_witness :
    (DF.mk ["value"] [Dtype.dFloat64]
      [[Val.vFloat (some 35)], [Val.vFloat none]]).header =
    (DF.mk ["value"] [Dtype.dStr]
      [[Val.vStr "35"], [Val.vStr "n/a"]]).header :=
  (bls_sm_value_coercion
    (DF.mk ["value"] [Dtype.dStr] [[Val.vStr "35"], [Val.vStr "n/a"]])
    (DF.mk ["value"] [Dtype.dFloat64]
      [[Val.vFloat (some 35)], [Val.vFloat none]])
    (by decide)).1

/-- C10 witness: the two extractors agree on the concrete `bls_sm` schema. -/
theorem get_dtypes_equivalence_witness :
    get_bls_dtypes bls_sm_schema = get_dtypes bls_sm_schema :=
  (get_dtypes_equivalence bls_sm_schema (by decide)
    ((bls_sm_schema.filter (fun p => decide (p.2 = PyTy.pint))).map Prod.fst)
    ((bls_sm_schema.filter (fun p => decide (p.2 = PyTy.pfloat))).map Prod.fst)
    ((bls_sm_schema.filter (fun p => decide (p.2 = PyTy.pstr))).map Prod.fst)
    (by decide)).1

end FD
